import Mathlib

/-
Verification of the barkhaus-sync repository against its specification.

The repository syncs inbound webhook records (Cognito form payloads) into
Shopify metaobjects.  Source files embedded here:
  - api/cognito-shopify.ts  (src/unnamed/part_001): payload normalization
    via the alias table MAP and the helper pick, gallery parsing, image
    upload via fileCreate, and a handle-keyed metaobject upsert;
  - api/shopify/setup-animal.ts (src/unnamed/part_000): the schema
    reconciler over the canonical FIELDS catalog;
  - api/shopify/setup-animal.js: a minimal lookup-only variant.

JavaScript values appearing in a JSON webhook body are modelled by the
inductive type Val; String(v), truthiness, v.trim(), v.toLowerCase(),
the regex test for an http(s) scheme and String.prototype.split are
modelled by executable Lean functions over character lists.
-/

namespace BarkhausSync

/-- A JSON value as it can appear in the webhook payload body. -/
inductive Val where
  | vStr (s : String)
  | vNum (n : Int)
  | vBool (b : Bool)
  | vNull
  | vArr (xs : List Val)

/-- The inbound payload: a flat string-keyed object, modelled as an
association list.  An absent key is modelled by a failed lookup; an
explicit JSON null is the value Val.vNull. -/
def Payload : Type := List (String × Val)

/-- Property lookup payload[k]; none models the JavaScript undefined. -/
def lookupVal : List (String × Val) → String → Option Val
  | [], _ => none
  | (k, v) :: rest, key => if k = key then some v else lookupVal rest key

mutual

/-- The JavaScript String(v) conversion for the values of Val. -/
def jsString : Val → String
  | .vStr s => s
  | .vNum n => toString n
  | .vBool b => if b then "true" else "false"
  | .vNull => "null"
  | .vArr xs => jsArrString xs

/-- Array.prototype.toString: elements joined with commas. -/
def jsArrString : List Val → String
  | [] => ""
  | [v] => jsElemString v
  | v :: rest => jsElemString v ++ "," ++ jsArrString rest
termination_by structural l => l

/-- Inside a joined array, null renders as the empty string; every other
value renders as at top level. -/
def jsElemString : Val → String
  | .vNull => ""
  | .vStr s => s
  | .vNum n => toString n
  | .vBool b => if b then "true" else "false"
  | .vArr xs => jsArrString xs
termination_by structural v => v

end

/-- JavaScript truthiness of a value. -/
def truthy : Val → Bool
  | .vStr s => decide (s ≠ "")
  | .vNum n => decide (n ≠ 0)
  | .vBool b => b
  | .vNull => false
  | .vArr _ => true

/-- Whitespace recognized by the JavaScript string trim. -/
def isJsWs (c : Char) : Bool :=
  c = ' ' || c = '\t' || c = '\n' || c = '\r' || c = '\x0b' || c = '\x0c' || c = ' '

/-- The JavaScript s.trim(): strip leading and trailing whitespace. -/
def jsTrim (s : String) : String :=
  ⟨((s.data.dropWhile isJsWs).reverse.dropWhile isJsWs).reverse⟩

/-- The JavaScript s.toLowerCase(), restricted to the ASCII range used here. -/
def jsToLower (s : String) : String :=
  ⟨s.data.map Char.toLower⟩

/-- The regex test ^https?:\/\/ applied to a string. -/
def isHttpUrl (s : String) : Bool :=
  decide (s.data.take 7 = "http://".data) || decide (s.data.take 8 = "https://".data)

/-- Accumulator pass of String.prototype.split on the comma separator. -/
def splitCommaAux : List Char → List Char → List (List Char)
  | [], acc => [acc.reverse]
  | c :: rest, acc =>
      if c = ',' then acc.reverse :: splitCommaAux rest []
      else splitCommaAux rest (c :: acc)

/-- The JavaScript s.split on a comma. -/
def splitComma (s : String) : List String :=
  (splitCommaAux s.data []).map (fun cs => ⟨cs⟩)

namespace Ingest

/-- Alias lists of MAP in api/cognito-shopify.ts, one per canonical field. -/
def MAP_externalId : List String := ["Entry ID", "entryId", "Number", "id"]

def MAP_name : List String := ["Name", "Dog Name", "name", "dog_name"]

def MAP_status : List String := ["Status", "status"]

def MAP_species : List String := ["Species", "species"]

def MAP_breed : List String := ["Breed", "breed"]

def MAP_age : List String := ["Age", "age"]

def MAP_gender : List String := ["Gender", "gender"]

def MAP_size : List String := ["Size", "size"]

def MAP_location : List String := ["Location", "location", "City"]

def MAP_adoptionFee : List String := ["Adoption Fee", "adoption_fee", "AdoptionFee"]

def MAP_description : List String := ["Description", "description"]

def MAP_imageUrl : List String := ["Image Url", "ImageUrl", "image_url", "PhotoUrl"]

def MAP_gallery : List String := ["Gallery Urls", "Gallery", "image_urls"]

def MAP_goodWithKids : List String := ["Good With Kids", "good_with_kids"]

def MAP_goodWithDogs : List String := ["Good With Dogs", "good_with_dogs"]

def MAP_goodWithCats : List String := ["Good With Cats", "good_with_cats"]

def MAP_houseTrained : List String := ["House Trained", "house_trained"]

def MAP_spayedNeutered : List String := ["Spayed/Neutered", "spayed_neutered"]

def MAP_vaccinated : List String := ["Vaccinated", "vaccinated"]

/-- Discriminator for the JavaScript null check v !== null. -/
def isNull : Val → Bool
  | Val.vNull => true
  | _ => false

/-- The acceptance test of pick: the value is defined (checked by the
caller through the lookup), not null, and its string representation does
not trim to the empty string. -/
def isGoodVal (v : Val) : Bool :=
  !(isNull v) && decide (jsTrim (jsString v) ≠ "")

/-- The pick helper of api/cognito-shopify.ts: first alias whose value is
defined, non-null and has a non-empty trimmed string representation;
otherwise the given fallback. -/
def pick (payload : Payload) (keys : List String) (fallback : Val) : Val :=
  match keys with
  | [] => fallback
  | k :: rest =>
      match lookupVal payload k with
      | some v => if isGoodVal v then v else pick payload rest fallback
      | none => pick payload rest fallback

/-- The alias search underlying pick, without the fallback: the first
alias whose value passes the acceptance test, if any. -/
def firstGood (payload : Payload) (keys : List String) : Option Val :=
  match keys with
  | [] => none
  | k :: rest =>
      match lookupVal payload k with
      | some v => if isGoodVal v then some v else firstGood payload rest
      | none => firstGood payload rest

/-- The nullish-coalescing step a ?? b: fall through on undefined and null. -/
def jsNullish : Option Val → Option Val
  | some Val.vNull => none
  | o => o

/-- The gallery source value: payload of the first gallery alias selected
by the ?? chain of the handler (a trailing null behaves as absent for the
downstream array and string tests, so it is collapsed here as well). -/
def galleryRaw (payload : Payload) : Option Val :=
  (jsNullish (lookupVal payload "Gallery Urls")).orElse
    (fun _ => (jsNullish (lookupVal payload "Gallery")).orElse
      (fun _ => jsNullish (lookupVal payload "image_urls")))

/-- Gallery URLs extracted from a selected gallery value: an array keeps
its string entries with an http(s) scheme; a comma-containing string is
split, trimmed and filtered; anything else gives no entries. -/
def galleryFromVal : Val → List String
  | .vArr xs =>
      xs.filterMap (fun u =>
        match u with
        | .vStr s => if isHttpUrl s then some s else none
        | _ => none)
  | .vStr s =>
      if decide (',' ∈ s.data) then ((splitComma s).map jsTrim).filter isHttpUrl
      else []
  | _ => []

/-- The galleryUrls computation of the handler. -/
def galleryFromPayload (payload : Payload) : List String :=
  match galleryRaw payload with
  | some v => galleryFromVal v
  | none => []

/-- Normalization failure: no usable external id. -/
inductive NormError where
  | missingIdentity
deriving DecidableEq

/-- The normalized record assembled by the handler before upload and upsert. -/
structure Normalized where
  externalId : String
  name : String
  statusRaw : String
  species : String
  breed : String
  age : String
  gender : String
  size : String
  location : String
  adoptionFee : String
  description : String
  imageUrl : String
  galleryUrls : List String
  good_with_kids : Bool
  good_with_dogs : Bool
  good_with_cats : Bool
  house_trained : Bool
  spayed_neutered : Bool
  vaccinated : Bool
deriving DecidableEq

/-- The externalId computation: picked identity alias, stringified, trimmed. -/
def normalizeId (payload : Payload) : String :=
  jsTrim (jsString (pick payload MAP_externalId (Val.vStr "")))

/-- The statusRaw computation: picked status with fallback available, lowercased. -/
def statusLower (payload : Payload) : String :=
  jsToLower (jsString (pick payload MAP_status (Val.vStr "available")))

/-- The field-by-field normalization of the handler body. -/
def mkNormalized (payload : Payload) : Normalized where
  externalId := normalizeId payload
  name := jsTrim (jsString (pick payload MAP_name (Val.vStr "Unnamed")))
  statusRaw := statusLower payload
  species := jsString (pick payload MAP_species (Val.vStr "Dog"))
  breed := jsString (pick payload MAP_breed (Val.vStr ""))
  age := jsString (pick payload MAP_age (Val.vStr ""))
  gender := jsString (pick payload MAP_gender (Val.vStr ""))
  size := jsString (pick payload MAP_size (Val.vStr ""))
  location := jsString (pick payload MAP_location (Val.vStr ""))
  adoptionFee := jsString (pick payload MAP_adoptionFee (Val.vStr ""))
  description := jsString (pick payload MAP_description (Val.vStr ""))
  imageUrl := jsString (pick payload MAP_imageUrl (Val.vStr ""))
  galleryUrls := galleryFromPayload payload
  good_with_kids := truthy (pick payload MAP_goodWithKids (Val.vBool false))
  good_with_dogs := truthy (pick payload MAP_goodWithDogs (Val.vBool false))
  good_with_cats := truthy (pick payload MAP_goodWithCats (Val.vBool false))
  house_trained := truthy (pick payload MAP_houseTrained (Val.vBool false))
  spayed_neutered := truthy (pick payload MAP_spayedNeutered (Val.vBool false))
  vaccinated := truthy (pick payload MAP_vaccinated (Val.vBool false))

/-- The normalization step of the handler: fail before any store call when
the external id trims to empty, otherwise produce the normalized record. -/
def normalize (payload : Payload) : Except NormError Normalized :=
  if normalizeId payload = "" then Except.error NormError.missingIdentity
  else Except.ok (mkNormalized payload)

/-- Publication status derivation: ACTIVE for the exact lowercased value
available, DRAFT otherwise. -/
inductive PubState where
  | ACTIVE
  | DRAFT
deriving DecidableEq

/-- The publishStatus computation of the handler. -/
def pubState (n : Normalized) : PubState :=
  if n.statusRaw = "available" then PubState.ACTIVE else PubState.DRAFT

/-- Outcome of one uploadExternalImage call, as seen by its caller: a
thrown transport or store error, a response without a usable file id, or
a file id. -/
def Oracle : Type := String → Except String (Option String)

/-- The call-site treatment of uploadExternalImage: catch any thrown
error to null, and surface a missing file id as null. -/
def materialize (oracle : Oracle) (url : String) : Option String :=
  match oracle url with
  | Except.error _ => none
  | Except.ok r => r

/-- The double-negation coercion of one boolean canonical field. -/
def normBool (payload : Payload) (keys : List String) : Bool :=
  truthy (pick payload keys (Val.vBool false))

/-- One metaobject field value of the upsert call. -/
structure Field where
  key : String
  value : String
  ftype : Option String
deriving DecidableEq

/-- Replacement pass of description.replace over newline runs: the flag
records whether the previous character already belonged to a run. -/
def replaceNlRunsAux (rep : List Char) : List Char → Bool → List Char
  | [], _ => []
  | c :: rest, inRun =>
      if c = '\n' then (if inRun then [] else rep) ++ replaceNlRunsAux rep rest true
      else c :: replaceNlRunsAux rep rest false

/-- The rich-text wrapping of the description field. -/
def descHtml (s : String) : String :=
  ⟨"<p>".data ++ replaceNlRunsAux "</p><p>".data s.data false ++ "</p>".data⟩

/-- JSON.stringify of the uploaded gallery file ids. -/
def jsonStringifyIds (ids : List String) : String :=
  "[" ++ String.intercalate "," (ids.map (fun i => "\"" ++ i ++ "\"")) ++ "]"

/-- The seventeen field values pushed unconditionally for every record. -/
def buildBaseFields (n : Normalized) : List Field :=
  [ ⟨"external_id", n.externalId, none⟩,
    ⟨"name", n.name, none⟩,
    ⟨"status", n.statusRaw, none⟩,
    ⟨"species", n.species, none⟩,
    ⟨"breed", n.breed, none⟩,
    ⟨"age", n.age, none⟩,
    ⟨"gender", n.gender, none⟩,
    ⟨"size", n.size, none⟩,
    ⟨"location", n.location, none⟩,
    ⟨"adoption_fee", n.adoptionFee, none⟩,
    ⟨"good_with_kids", if n.good_with_kids then "true" else "false", some "boolean"⟩,
    ⟨"good_with_dogs", if n.good_with_dogs then "true" else "false", some "boolean"⟩,
    ⟨"good_with_cats", if n.good_with_cats then "true" else "false", some "boolean"⟩,
    ⟨"house_trained", if n.house_trained then "true" else "false", some "boolean"⟩,
    ⟨"spayed_neutered", if n.spayed_neutered then "true" else "false", some "boolean"⟩,
    ⟨"vaccinated", if n.vaccinated then "true" else "false", some "boolean"⟩,
    ⟨"description", descHtml n.description, some "rich_text_field"⟩ ]

/-- The primary image upload is attempted exactly when the url is truthy
and passes the http(s) scheme test. -/
def imageAttempts (n : Normalized) : List String :=
  if n.imageUrl ≠ "" ∧ isHttpUrl n.imageUrl = true then [n.imageUrl] else []

/-- The gallery upload loop runs over the first twelve gallery urls,
skipping any that fail the scheme test (the outer guard makes an empty
gallery issue no loop at all). -/
def galleryAttempts (gs : List String) : List String :=
  if gs = [] then [] else (gs.take 12).filter isHttpUrl

/-- File ids collected by the gallery loop under a given upload outcome. -/
def galleryFileIds (gs : List String) (oracle : Oracle) : List String :=
  (galleryAttempts gs).filterMap (materialize oracle)

/-- The conditional push of the primary image field, as the list of
fields it appends. -/
def imageField (n : Normalized) (oracle : Oracle) : List Field :=
  if n.imageUrl ≠ "" ∧ isHttpUrl n.imageUrl = true then
    match materialize oracle n.imageUrl with
    | some fid => [⟨"image", fid, some "file_reference"⟩]
    | none => []
  else []

/-- The conditional push of the gallery field, as the list of fields it
appends. -/
def galleryField (n : Normalized) (oracle : Oracle) : List Field :=
  if n.galleryUrls ≠ [] ∧ galleryFileIds n.galleryUrls oracle ≠ [] then
    [⟨"gallery", jsonStringifyIds (galleryFileIds n.galleryUrls oracle), some "list.file_reference"⟩]
  else []

/-- The field list sent to the upsert mutation: the unconditional fields
followed by the conditional image and gallery pushes. -/
def finalFields (n : Normalized) (oracle : Oracle) : List Field :=
  (buildBaseFields n ++ imageField n oracle) ++ galleryField n oracle

/-- All upload attempts made for one normalized record, in order. -/
def uploadsOf (n : Normalized) : List String :=
  imageAttempts n ++ galleryAttempts n.galleryUrls

/-- Upload attempts of the whole handler run: none at all when
normalization failed, because the handler returns before any store call. -/
def recordUploads (payload : Payload) : List String :=
  match normalize payload with
  | Except.error _ => []
  | Except.ok n => uploadsOf n

/-- Whether the handler run reaches the metaobjectUpsert call. -/
def upsertIssued (payload : Payload) : Bool :=
  match normalize payload with
  | Except.error _ => false
  | Except.ok _ => true

/-- The data.metaobjectUpsert part of the upsert response body. -/
structure UpsertData where
  userErrors : List String
  metaobjectId : Option String
deriving DecidableEq

/-- The parsed JSON body of a GraphQL response: the top-level errors
array when present, and the data.metaobjectUpsert payload when present. -/
structure GqlJson where
  errors : Option (List String)
  upsertData : Option UpsertData
deriving DecidableEq

/-- One HTTP response of the store: transport 2xx flag, status code, body. -/
structure HttpResp where
  ok : Bool
  status : Nat
  json : GqlJson
deriving DecidableEq

/-- JSON.stringify of a top-level errors array, abstracted to a join. -/
def stringifyErrors (es : List String) : String :=
  "[" ++ String.intercalate "," es ++ "]"

/-- The gql helper of api/cognito-shopify.ts (the identical helper also
appears in api/shopify/setup-animal.ts): throw on a non-2xx transport
response, preferring the response errors array for the message;
otherwise return the parsed body unchanged. -/
def gql (r : HttpResp) : Except String GqlJson :=
  if r.ok = false then
    Except.error ("Shopify GraphQL error: " ++
      (match r.json.errors with
       | some es => stringifyErrors es
       | none => "HTTP " ++ toString r.status))
  else Except.ok r.json

/-- Outcome of the upsert tail of the handler: a thrown gql error caught
as a 500, a first userError returned as a 400, or the 200 success path. -/
inductive UpsertOutcome where
  | serverError (msg : String)
  | badRequest (err : String)
  | success (id : Option String)
deriving DecidableEq

/-- The upsert call and its response handling in the handler tail. -/
def upsertStep (r : HttpResp) : UpsertOutcome :=
  match gql r with
  | Except.error m => UpsertOutcome.serverError m
  | Except.ok j =>
      match j.upsertData with
      | some d =>
          match d.userErrors with
          | e :: _ => UpsertOutcome.badRequest e
          | [] => UpsertOutcome.success d.metaobjectId
      | none => UpsertOutcome.success none

/-- The gql helper of the plain JavaScript handlers, identical in
api/shopify/setup-animal.js and in the api/cognito-shopify.js draft:
the parsed body is returned with no failure check at all, whatever the
transport status or errors array. -/
def gqlUnchecked (r : HttpResp) : GqlJson := r.json

/-- Gallery value the claim algorithm would select: first alias whose
value passes the pick acceptance test, parsed with the array and
comma-string rules of the handler.  This definition follows the words of
the specification (first non-empty alias wins for every canonical field)
and exists only to be compared with galleryFromPayload. -/
def claimGallery (payload : Payload) : List String :=
  match firstGood payload MAP_gallery with
  | some v => galleryFromVal v
  | none => []

end Ingest

namespace Setup

/-- One canonical field definition of the FIELDS catalog in
api/shopify/setup-animal.ts.  The optional required flag is modelled as
a Bool (the reconciler sends required coerced by a double negation) and
the single UNIQUE validation of external_id as a Bool. -/
structure FieldDef where
  name : String
  key : String
  ftype : String
  required : Bool
  uniqueValidation : Bool
deriving DecidableEq

/-- The canonical FIELDS catalog. -/
def FIELDS : List FieldDef :=
  [ ⟨"Name", "name", "single_line_text_field", true, false⟩,
    ⟨"Status", "status", "single_line_text_field", false, false⟩,
    ⟨"Species", "species", "single_line_text_field", false, false⟩,
    ⟨"Breed", "breed", "single_line_text_field", false, false⟩,
    ⟨"Age", "age", "single_line_text_field", false, false⟩,
    ⟨"Gender", "gender", "single_line_text_field", false, false⟩,
    ⟨"Size", "size", "single_line_text_field", false, false⟩,
    ⟨"Location", "location", "single_line_text_field", false, false⟩,
    ⟨"Adoption Fee", "adoption_fee", "single_line_text_field", false, false⟩,
    ⟨"Good With Kids", "good_with_kids", "boolean", false, false⟩,
    ⟨"Good With Dogs", "good_with_dogs", "boolean", false, false⟩,
    ⟨"Good With Cats", "good_with_cats", "boolean", false, false⟩,
    ⟨"House Trained", "house_trained", "boolean", false, false⟩,
    ⟨"Spayed/Neutered", "spayed_neutered", "boolean", false, false⟩,
    ⟨"Vaccinated", "vaccinated", "boolean", false, false⟩,
    ⟨"Description", "description", "rich_text_field", false, false⟩,
    ⟨"Image", "image", "file_reference", false, false⟩,
    ⟨"Gallery", "gallery", "list.file_reference", false, false⟩,
    ⟨"External ID", "external_id", "single_line_text_field", false, true⟩ ]

/-- The request the reconciler issues, or the noop response. -/
inductive ReconcileAction where
  | created (fields : List FieldDef)
  | extended (id : String) (toUpdate : List FieldDef) (toCreate : List FieldDef)
  | noop
deriving DecidableEq

/-- The toCreate computation: catalog fields whose key is not in the
existing key set. -/
def toCreate (existingKeys : List String) : List FieldDef :=
  FIELDS.filter (fun f => decide (f.key ∉ existingKeys))

/-- The handler branch structure of api/shopify/setup-animal.ts: create
the full catalog when no definition exists; otherwise answer up-to-date
when nothing is missing, else issue one update with an empty
fieldDefinitionsToUpdate list and the missing fields to create. -/
def reconcile (existing : Option (String × List String)) : ReconcileAction :=
  match existing with
  | none => ReconcileAction.created FIELDS
  | some (id, keys) =>
      if toCreate keys = [] then ReconcileAction.noop
      else ReconcileAction.extended id [] (toCreate keys)

end Setup

/- Concrete payloads used by the witnesses and counterexamples below. -/

/-- The worked example payload of the specification. -/
def p8 : Payload :=
  [("Entry ID", Val.vStr "42"), ("Name", Val.vStr "Rex"),
   ("Status", Val.vStr "AVAILABLE"), ("Good With Kids", Val.vStr "true")]

/-- A record with an identity but with every status alias absent. -/
def p1c : Payload := [("Entry ID", Val.vStr "7")]

/-- A record whose first gallery alias holds the empty string while the
second holds an array with a valid url. -/
def p6c : Payload :=
  [("Entry ID", Val.vStr "9"), ("Gallery Urls", Val.vStr ""),
   ("Gallery", Val.vArr [Val.vStr "http://a.jpg"])]

/-- A record whose gallery alias holds one comma-separated string. -/
def p6w : Payload :=
  [("Entry ID", Val.vStr "11"),
   ("Gallery Urls", Val.vStr "http://a.jpg,http://b.jpg")]

/-- A record with no identity alias at all. -/
def p4bad : Payload := [("Name", Val.vStr "Rex")]

/-- A record whose identity alias carries surrounding whitespace. -/
def p4good : Payload := [("Entry ID", Val.vStr " 42 ")]

/-- Twenty valid gallery urls, in source order. -/
def gallery20 : List String :=
  ["http://g/01", "http://g/02", "http://g/03", "http://g/04", "http://g/05",
   "http://g/06", "http://g/07", "http://g/08", "http://g/09", "http://g/10",
   "http://g/11", "http://g/12", "http://g/13", "http://g/14", "http://g/15",
   "http://g/16", "http://g/17", "http://g/18", "http://g/19", "http://g/20"]

/-- A record carrying the twenty valid gallery urls as an array. -/
def p5w : Payload :=
  [("Entry ID", Val.vStr "5"), ("Gallery", Val.vArr (gallery20.map Val.vStr))]

/-- A record with a primary image and a two-entry gallery. -/
def p7w : Payload :=
  [("Entry ID", Val.vStr "1"), ("Image Url", Val.vStr "http://img/a.jpg"),
   ("Gallery", Val.vArr [Val.vStr "http://img/b.jpg", Val.vStr "http://img/c.jpg"])]

/-- A 200 response carrying a non-empty top-level errors array and no data. -/
def r2c : Ingest.HttpResp := ⟨true, 200, ⟨some ["Throttled"], none⟩⟩

/-- A payload whose single gallery alias is one url with no comma. -/
def p10w : Payload :=
  [("Gallery Urls", Val.vStr "http://only.jpg"),
   ("Gallery", Val.vArr [Val.vStr "http://x.jpg"])]

end BarkhausSync

namespace BarkhausSync.Ingest

/-- pick is the fallback-completion of the alias search firstGood. -/
theorem pick_eq_getD (payload : Payload) (keys : List String) (fb : Val) :
    pick payload keys fb = (firstGood payload keys).getD fb := by
  induction keys with
  | nil => rfl
  | cons k rest ih =>
      cases hl : lookupVal payload k with
      | none => simp only [pick, firstGood, hl]; exact ih
      | some v =>
          by_cases hg : isGoodVal v = true
          · simp only [pick, firstGood, hl, hg, if_true, Option.getD_some]
          · simp only [pick, firstGood, hl, hg, if_false]; exact ih

/-- A value returned by the alias search passes the acceptance test. -/
theorem firstGood_isGood (payload : Payload) (keys : List String) (v : Val)
    (h : firstGood payload keys = some v) : isGoodVal v = true := by
  induction keys with
  | nil => exact Option.noConfusion h
  | cons k rest ih =>
      cases hl : lookupVal payload k with
      | none =>
          simp only [firstGood, hl] at h
          exact ih h
      | some w =>
          by_cases hg : isGoodVal w = true
          · simp only [firstGood, hl, hg, if_true, Option.some.injEq] at h
            rw [← h]; exact hg
          · simp only [firstGood, hl, hg, if_false] at h
            exact ih h

/-- The alias search fails exactly when every alias key is either absent
or mapped to a value failing the acceptance test. -/
theorem firstGood_none_iff (payload : Payload) (keys : List String) :
    firstGood payload keys = none ↔
      ∀ k ∈ keys, ∀ v, lookupVal payload k = some v → isGoodVal v = false := by
  induction keys with
  | nil => simp [firstGood]
  | cons k rest ih =>
      cases hl : lookupVal payload k with
      | none =>
          simp only [firstGood, hl, ih]
          constructor
          · intro h k' hk' v hv
            rcases List.mem_cons.mp hk' with h1 | h1
            · subst h1; rw [hl] at hv; exact Option.noConfusion hv
            · exact h k' h1 v hv
          · intro h k' hk' v hv
            exact h k' (List.mem_cons_of_mem _ hk') v hv
      | some w =>
          by_cases hg : isGoodVal w = true
          · have he : firstGood payload (k :: rest) = some w := by
              simp only [firstGood, hl]
              exact if_pos hg
            rw [he]
            constructor
            · intro h; exact Option.noConfusion h
            · intro h
              have hw := h k (List.mem_cons_self k rest) w hl
              rw [hg] at hw; exact Bool.noConfusion hw
          · have he : firstGood payload (k :: rest) = firstGood payload rest := by
              simp only [firstGood, hl]
              exact if_neg hg
            rw [he, ih]
            constructor
            · intro h k' hk' v hv
              rcases List.mem_cons.mp hk' with h1 | h1
              · subst h1; rw [hl] at hv; cases hv
                exact Bool.eq_false_iff.mpr hg
              · exact h k' h1 v hv
            · intro h k' hk' v hv
              exact h k' (List.mem_cons_of_mem _ hk') v hv

/-- The null discriminator agrees with equality to the null value. -/
theorem isNull_true_iff (v : Val) : isNull v = true ↔ v = Val.vNull := by
  cases v with
  | vStr s => exact iff_of_false (by simp [isNull]) (fun h => Val.noConfusion h)
  | vNum n => exact iff_of_false (by simp [isNull]) (fun h => Val.noConfusion h)
  | vBool b => exact iff_of_false (by simp [isNull]) (fun h => Val.noConfusion h)
  | vNull => simp [isNull]
  | vArr xs => exact iff_of_false (by simp [isNull]) (fun h => Val.noConfusion h)

/-- A value fails the acceptance test exactly when it is null or its
string representation trims to the empty string. -/
theorem isGoodVal_false_iff (v : Val) :
    isGoodVal v = false ↔ (v = Val.vNull ∨ jsTrim (jsString v) = "") := by
  constructor
  · intro h
    rcases Bool.and_eq_false_iff.mp h with h1 | h1
    · left
      exact (isNull_true_iff v).mp (by
        cases hn : isNull v with
        | true => rfl
        | false => rw [hn] at h1; exact Bool.noConfusion h1)
    · right
      exact not_not.mp (of_decide_eq_false h1)
  · intro h
    rcases h with h | h
    · subst h; rfl
    · apply Bool.and_eq_false_iff.mpr
      right
      exact decide_eq_false (not_not.mpr h)

/-- The trimmed string representation of an accepted value is non-empty. -/
theorem isGoodVal_trim_ne (v : Val) (h : isGoodVal v = true) :
    jsTrim (jsString v) ≠ "" := by
  have := (Bool.and_eq_true _ _).mp h
  exact of_decide_eq_true this.2

/-- The empty string trims to itself. -/
theorem jsTrim_empty : jsTrim "" = "" := rfl

/-- Inversion of a successful normalization. -/
theorem normalize_ok_elim (payload : Payload) (n : Normalized)
    (h : normalize payload = Except.ok n) :
    normalizeId payload ≠ "" ∧ n = mkNormalized payload := by
  by_cases hid : normalizeId payload = ""
  · exfalso
    unfold normalize at h
    rw [if_pos hid] at h
    exact Except.noConfusion h
  · refine ⟨hid, ?_⟩
    unfold normalize at h
    rw [if_neg hid] at h
    injection h with h
    exact h.symm

/-- Normalization fails exactly when the external id trims to empty. -/
theorem normalize_error_iff (payload : Payload) :
    normalize payload = Except.error NormError.missingIdentity ↔
      normalizeId payload = "" := by
  constructor
  · intro h
    by_cases hid : normalizeId payload = ""
    · exact hid
    · exfalso
      unfold normalize at h
      rw [if_neg hid] at h
      exact Except.noConfusion h
  · intro hid
    unfold normalize
    rw [if_pos hid]

/-- The external id trims to empty exactly when the identity alias
search fails. -/
theorem normalizeId_empty_iff (payload : Payload) :
    normalizeId payload = "" ↔ firstGood payload MAP_externalId = none := by
  unfold normalizeId
  rw [pick_eq_getD]
  cases hfg : firstGood payload MAP_externalId with
  | none => exact iff_of_true (by decide) rfl
  | some v =>
      have hg := firstGood_isGood payload MAP_externalId v hfg
      have hne := isGoodVal_trim_ne v hg
      rw [Option.getD_some]
      exact iff_of_false hne (fun hh => Option.noConfusion hh)

/-- Every url produced by the gallery value parser passes the scheme test. -/
theorem galleryFromVal_all_http (v : Val) :
    ∀ u ∈ galleryFromVal v, isHttpUrl u = true := by
  intro u hu
  cases v with
  | vArr xs =>
      rcases List.mem_filterMap.mp hu with ⟨a, _, ha⟩
      cases a with
      | vStr s =>
          dsimp only at ha
          by_cases hs : isHttpUrl s = true
          · rw [if_pos hs] at ha
            cases ha; exact hs
          · rw [if_neg hs] at ha
            exact Option.noConfusion ha
      | vNum n => exact Option.noConfusion ha
      | vBool b => exact Option.noConfusion ha
      | vNull => exact Option.noConfusion ha
      | vArr ys => exact Option.noConfusion ha
  | vStr s =>
      by_cases hc : decide (',' ∈ s.data) = true
      · simp only [galleryFromVal, hc, if_true] at hu
        exact (List.mem_filter.mp hu).2
      · simp only [galleryFromVal, hc, if_false] at hu
        exact absurd hu (List.not_mem_nil u)
  | vNum n => exact absurd hu (List.not_mem_nil u)
  | vBool b => exact absurd hu (List.not_mem_nil u)
  | vNull => exact absurd hu (List.not_mem_nil u)

/-- Every normalized gallery url passes the scheme test. -/
theorem galleryFromPayload_all_http (payload : Payload) :
    ∀ u ∈ galleryFromPayload payload, isHttpUrl u = true := by
  intro u hu
  unfold galleryFromPayload at hu
  cases hr : galleryRaw payload with
  | none => rw [hr] at hu; exact absurd hu (List.not_mem_nil u)
  | some v => rw [hr] at hu; exact galleryFromVal_all_http v u hu

/-- On an all-http list, the gallery loop attempts exactly the first
twelve entries. -/
theorem galleryAttempts_take (gs : List String)
    (h : ∀ u ∈ gs, isHttpUrl u = true) :
    galleryAttempts gs = gs.take 12 := by
  by_cases hgs : gs = []
  · subst hgs; rfl
  · unfold galleryAttempts
    rw [if_neg hgs]
    exact List.filter_eq_self.mpr (fun a ha => h a (List.take_subset 12 gs ha))

end BarkhausSync.Ingest

namespace BarkhausSync

/-- C8: normalizing the worked example payload of the specification
yields externalId 42, name Rex, lowercased status available, a true
good_with_kids flag, and the ACTIVE publication state. -/
theorem c8_example :
    Ingest.normalize p8 = Except.ok (Ingest.mkNormalized p8)
    ∧ (Ingest.mkNormalized p8).externalId = "42"
    ∧ (Ingest.mkNormalized p8).name = "Rex"
    ∧ (Ingest.mkNormalized p8).statusRaw = "available"
    ∧ (Ingest.mkNormalized p8).good_with_kids = true
    ∧ Ingest.pubState (Ingest.mkNormalized p8) = Ingest.PubState.ACTIVE :=
  ⟨rfl, rfl, rfl, rfl, rfl, rfl⟩

/-- C10: a gallery alias holding a single comma-free string normalizes
to the empty gallery; a non-empty gallery can only come from an array
value or a comma-containing string; and the gallery alias chain falls
through only on absent or null values, so a present non-null first alias
is always the selected gallery source. -/
theorem c10_gallery_shape (payload : Payload) :
    (∀ s, Ingest.galleryRaw payload = some (Val.vStr s) → (',' ∉ s.data) →
        Ingest.galleryFromPayload payload = [])
    ∧ (Ingest.galleryFromPayload payload ≠ [] →
        (∃ xs, Ingest.galleryRaw payload = some (Val.vArr xs)) ∨
        (∃ s, Ingest.galleryRaw payload = some (Val.vStr s) ∧ ',' ∈ s.data))
    ∧ (∀ v, lookupVal payload "Gallery Urls" = some v → v ≠ Val.vNull →
        Ingest.galleryRaw payload = some v) := by
  refine ⟨?_, ?_, ?_⟩
  · intro s hs hc
    unfold Ingest.galleryFromPayload
    rw [hs]
    show (if decide (',' ∈ s.data) then
        ((splitComma s).map jsTrim).filter isHttpUrl else []) = []
    rw [if_neg]
    simp [hc]
  · intro hne
    unfold Ingest.galleryFromPayload at hne
    cases hr : Ingest.galleryRaw payload with
    | none => rw [hr] at hne; exact absurd rfl hne
    | some v =>
        rw [hr] at hne
        cases v with
        | vArr xs => exact Or.inl ⟨xs, rfl⟩
        | vStr s =>
            by_cases hc : decide (',' ∈ s.data) = true
            · exact Or.inr ⟨s, rfl, of_decide_eq_true hc⟩
            · exfalso
              apply hne
              show (if decide (',' ∈ s.data) then
                  ((splitComma s).map jsTrim).filter isHttpUrl else []) = []
              rw [if_neg hc]
        | vNum n => exact absurd rfl hne
        | vBool b => exact absurd rfl hne
        | vNull => exact absurd rfl hne
  · intro v hv hnn
    unfold Ingest.galleryRaw
    rw [hv]
    have hj : Ingest.jsNullish (some v) = some v := by
      cases v with
      | vNull => exact absurd rfl hnn
      | vStr s => rfl
      | vNum n => rfl
      | vBool b => rfl
      | vArr xs => rfl
    rw [hj]
    rfl

/-- C10 witness: a single valid comma-free url in the first gallery
alias yields the empty normalized gallery. -/
theorem c10_gallery_shape_witness :
    Ingest.galleryFromPayload p10w = [] :=
  (c10_gallery_shape p10w).1 "http://only.jpg" rfl (by decide)

/-- C9: for every boolean canonical field, a selected alias whose value
is a string (necessarily with non-blank content, or it would not have
been selected) coerces to true, including the strings false, no and 0;
the field is false exactly when no alias is selected (the false fallback)
or the selected value is itself falsy. -/
theorem c9_boolean_truthiness (payload : Payload) (keys : List String) :
    ((Ingest.mkNormalized payload).good_with_kids
        = Ingest.normBool payload Ingest.MAP_goodWithKids)
    ∧ (∀ s, Ingest.firstGood payload keys = some (Val.vStr s) →
        Ingest.normBool payload keys = true)
    ∧ (Ingest.normBool payload keys = false ↔
        (Ingest.firstGood payload keys = none ∨
         ∃ v, Ingest.firstGood payload keys = some v ∧ truthy v = false)) := by
  refine ⟨rfl, ?_, ?_⟩
  · intro s hs
    have hg := Ingest.firstGood_isGood payload keys (Val.vStr s) hs
    have hne := Ingest.isGoodVal_trim_ne (Val.vStr s) hg
    have hsne : s ≠ "" := by
      intro he; subst he; exact hne rfl
    unfold Ingest.normBool
    rw [Ingest.pick_eq_getD, hs, Option.getD_some]
    exact decide_eq_true hsne
  · unfold Ingest.normBool
    rw [Ingest.pick_eq_getD]
    cases hfg : Ingest.firstGood payload keys with
    | none =>
        constructor
        · intro _; exact Or.inl rfl
        · intro _; rfl
    | some v =>
        rw [Option.getD_some]
        constructor
        · intro h; exact Or.inr ⟨v, rfl, h⟩
        · intro h
          rcases h with h | ⟨w, hw, hfw⟩
          · exact Option.noConfusion h
          · cases hw; exact hfw

/-- C9 witness: the strings false, no and 0 in a boolean alias all
normalize the corresponding field to true. -/
theorem c9_boolean_truthiness_witness :
    Ingest.normBool [("Good With Kids", Val.vStr "false")] Ingest.MAP_goodWithKids = true
    ∧ Ingest.normBool [("Vaccinated", Val.vStr "no")] Ingest.MAP_vaccinated = true
    ∧ Ingest.normBool [("House Trained", Val.vStr "0")] Ingest.MAP_houseTrained = true :=
  ⟨(c9_boolean_truthiness [("Good With Kids", Val.vStr "false")]
      Ingest.MAP_goodWithKids).2.1 "false" rfl,
   (c9_boolean_truthiness [("Vaccinated", Val.vStr "no")]
      Ingest.MAP_vaccinated).2.1 "no" rfl,
   (c9_boolean_truthiness [("House Trained", Val.vStr "0")]
      Ingest.MAP_houseTrained).2.1 "0" rfl⟩

/-- C1 counterexample: a record with an identity but with every status
alias absent normalizes with the defaulted status available and is
published ACTIVE, where the claim predicts Draft for an absent status. -/
theorem c1_status_counterexample :
    Ingest.firstGood p1c Ingest.MAP_status = none
    ∧ Ingest.normalize p1c = Except.ok (Ingest.mkNormalized p1c)
    ∧ Ingest.pubState (Ingest.mkNormalized p1c) = Ingest.PubState.ACTIVE
    ∧ Ingest.pubState (Ingest.mkNormalized p1c) ≠ Ingest.PubState.DRAFT :=
  ⟨rfl, rfl, rfl, by decide⟩

/-- C1 amended: the publication state of a normalized record is ACTIVE
exactly when the lowercased selected-or-defaulted status value equals
available; because the status fallback is the string available, a record
whose status aliases are all absent or empty is published ACTIVE. -/
theorem c1_status_mapping (payload : Payload) (n : Ingest.Normalized)
    (h : Ingest.normalize payload = Except.ok n) :
    (Ingest.pubState n = Ingest.PubState.ACTIVE ↔
        Ingest.statusLower payload = "available")
    ∧ (Ingest.firstGood payload Ingest.MAP_status = none →
        Ingest.pubState n = Ingest.PubState.ACTIVE) := by
  obtain ⟨hid, hn⟩ := Ingest.normalize_ok_elim payload n h
  subst hn
  have hsr : (Ingest.mkNormalized payload).statusRaw = Ingest.statusLower payload := rfl
  constructor
  · unfold Ingest.pubState
    rw [hsr]
    by_cases hs : Ingest.statusLower payload = "available"
    · rw [if_pos hs]
      exact iff_of_true rfl hs
    · rw [if_neg hs]
      exact iff_of_false (fun hh => Ingest.PubState.noConfusion hh) hs
  · intro hnone
    have hp : Ingest.pick payload Ingest.MAP_status (Val.vStr "available")
        = Val.vStr "available" := by
      rw [Ingest.pick_eq_getD, hnone]
      rfl
    have hsl : Ingest.statusLower payload = "available" := by
      unfold Ingest.statusLower
      rw [hp]
      rfl
    unfold Ingest.pubState
    rw [hsr, if_pos hsl]

/-- C1 amended witness: the record with no status alias is published ACTIVE. -/
theorem c1_status_mapping_witness :
    Ingest.pubState (Ingest.mkNormalized p1c) = Ingest.PubState.ACTIVE :=
  (c1_status_mapping p1c (Ingest.mkNormalized p1c) rfl).2 rfl

/-- C4: normalization fails with MissingIdentity exactly when every
identity alias is absent, null or has a blank string representation;
otherwise it succeeds and the external id equals the trimmed selected
value and is non-empty; and on failure the handler makes no upload
attempt and never reaches the upsert call. -/
theorem c4_missing_identity (payload : Payload) :
    (Ingest.normalize payload = Except.error Ingest.NormError.missingIdentity
        ↔ ∀ k ∈ Ingest.MAP_externalId, ∀ v, lookupVal payload k = some v →
            v = Val.vNull ∨ jsTrim (jsString v) = "")
    ∧ (Ingest.normalize payload ≠ Except.error Ingest.NormError.missingIdentity →
        ∃ n, Ingest.normalize payload = Except.ok n)
    ∧ (∀ n, Ingest.normalize payload = Except.ok n →
        n.externalId
            = jsTrim (jsString (Ingest.pick payload Ingest.MAP_externalId (Val.vStr "")))
        ∧ n.externalId ≠ "")
    ∧ (Ingest.normalize payload = Except.error Ingest.NormError.missingIdentity →
        Ingest.recordUploads payload = [] ∧ Ingest.upsertIssued payload = false) := by
  refine ⟨?_, ?_, ?_, ?_⟩
  · rw [Ingest.normalize_error_iff, Ingest.normalizeId_empty_iff,
      Ingest.firstGood_none_iff]
    constructor
    · intro h k hk v hv
      exact (Ingest.isGoodVal_false_iff v).mp (h k hk v hv)
    · intro h k hk v hv
      exact (Ingest.isGoodVal_false_iff v).mpr (h k hk v hv)
  · intro h
    by_cases hid : Ingest.normalizeId payload = ""
    · exact absurd ((Ingest.normalize_error_iff payload).mpr hid) h
    · refine ⟨Ingest.mkNormalized payload, ?_⟩
      unfold Ingest.normalize
      rw [if_neg hid]
  · intro n h
    obtain ⟨hid, hn⟩ := Ingest.normalize_ok_elim payload n h
    subst hn
    exact ⟨rfl, hid⟩
  · intro h
    constructor
    · unfold Ingest.recordUploads
      rw [h]
    · unfold Ingest.upsertIssued
      rw [h]

/-- C4 witness: a payload with no identity alias issues no upload and no
upsert, and a payload whose identity alias carries blanks yields the
trimmed non-empty external id. -/
theorem c4_missing_identity_witness :
    (Ingest.recordUploads p4bad = [] ∧ Ingest.upsertIssued p4bad = false)
    ∧ ((Ingest.mkNormalized p4good).externalId
          = jsTrim (jsString (Ingest.pick p4good Ingest.MAP_externalId (Val.vStr "")))
        ∧ (Ingest.mkNormalized p4good).externalId ≠ "") :=
  ⟨(c4_missing_identity p4bad).2.2.2 rfl,
   (c4_missing_identity p4good).2.2.1 (Ingest.mkNormalized p4good) rfl⟩

/-- C6 counterexample: with the first gallery alias holding the empty
string and the second a one-url array, the first alias with a non-empty
string representation is the array, yet the normalized gallery is empty,
so the gallery field does not follow the first-non-empty-alias rule. -/
theorem c6_alias_counterexample :
    Ingest.firstGood p6c Ingest.MAP_gallery = some (Val.vArr [Val.vStr "http://a.jpg"])
    ∧ Ingest.claimGallery p6c = ["http://a.jpg"]
    ∧ Ingest.normalize p6c = Except.ok (Ingest.mkNormalized p6c)
    ∧ (Ingest.mkNormalized p6c).galleryUrls = []
    ∧ (Ingest.mkNormalized p6c).galleryUrls ≠ Ingest.claimGallery p6c :=
  ⟨rfl, rfl, rfl, rfl, by decide⟩

/-- C6 amended: every canonical field except gallery takes its value
from the first alias whose value is defined, non-null and has a
non-blank string representation, with the declared fallback otherwise;
the gallery alias chain instead falls through only on absent or null
values, so a present non-null first alias is always the selected gallery
source even when its string representation is empty. -/
theorem c6_alias_priority (payload : Payload) :
    (∀ keys fb, Ingest.pick payload keys fb = (Ingest.firstGood payload keys).getD fb)
    ∧ (∀ v, lookupVal payload "Gallery Urls" = some v → v ≠ Val.vNull →
        Ingest.galleryRaw payload = some v)
    ∧ (∀ n, Ingest.normalize payload = Except.ok n →
        n.externalId = jsTrim (jsString
          ((Ingest.firstGood payload Ingest.MAP_externalId).getD (Val.vStr "")))
        ∧ n.name = jsTrim (jsString
          ((Ingest.firstGood payload Ingest.MAP_name).getD (Val.vStr "Unnamed")))
        ∧ n.statusRaw = jsToLower (jsString
          ((Ingest.firstGood payload Ingest.MAP_status).getD (Val.vStr "available")))
        ∧ n.species = jsString
          ((Ingest.firstGood payload Ingest.MAP_species).getD (Val.vStr "Dog"))
        ∧ n.breed = jsString
          ((Ingest.firstGood payload Ingest.MAP_breed).getD (Val.vStr ""))
        ∧ n.age = jsString
          ((Ingest.firstGood payload Ingest.MAP_age).getD (Val.vStr ""))
        ∧ n.gender = jsString
          ((Ingest.firstGood payload Ingest.MAP_gender).getD (Val.vStr ""))
        ∧ n.size = jsString
          ((Ingest.firstGood payload Ingest.MAP_size).getD (Val.vStr ""))
        ∧ n.location = jsString
          ((Ingest.firstGood payload Ingest.MAP_location).getD (Val.vStr ""))
        ∧ n.adoptionFee = jsString
          ((Ingest.firstGood payload Ingest.MAP_adoptionFee).getD (Val.vStr ""))
        ∧ n.description = jsString
          ((Ingest.firstGood payload Ingest.MAP_description).getD (Val.vStr ""))
        ∧ n.imageUrl = jsString
          ((Ingest.firstGood payload Ingest.MAP_imageUrl).getD (Val.vStr ""))
        ∧ n.good_with_kids = truthy
          ((Ingest.firstGood payload Ingest.MAP_goodWithKids).getD (Val.vBool false))
        ∧ n.good_with_dogs = truthy
          ((Ingest.firstGood payload Ingest.MAP_goodWithDogs).getD (Val.vBool false))
        ∧ n.good_with_cats = truthy
          ((Ingest.firstGood payload Ingest.MAP_goodWithCats).getD (Val.vBool false))
        ∧ n.house_trained = truthy
          ((Ingest.firstGood payload Ingest.MAP_houseTrained).getD (Val.vBool false))
        ∧ n.spayed_neutered = truthy
          ((Ingest.firstGood payload Ingest.MAP_spayedNeutered).getD (Val.vBool false))
        ∧ n.vaccinated = truthy
          ((Ingest.firstGood payload Ingest.MAP_vaccinated).getD (Val.vBool false))) := by
  refine ⟨fun keys fb => Ingest.pick_eq_getD payload keys fb, ?_, ?_⟩
  · intro v hv hnn
    unfold Ingest.galleryRaw
    rw [hv]
    have hj : Ingest.jsNullish (some v) = some v := by
      cases v with
      | vNull => exact absurd rfl hnn
      | vStr s => rfl
      | vNum n => rfl
      | vBool b => rfl
      | vArr xs => rfl
    rw [hj]
    rfl
  · intro n h
    obtain ⟨hid, hn⟩ := Ingest.normalize_ok_elim payload n h
    subst hn
    refine ⟨?_, ?_, ?_, ?_, ?_, ?_, ?_, ?_, ?_, ?_, ?_, ?_, ?_, ?_, ?_, ?_, ?_, ?_⟩
    all_goals rw [← Ingest.pick_eq_getD]
    all_goals rfl

/-- C6 amended witness: on a concrete record, pick agrees with the alias
search, a comma-separated first gallery alias is the selected gallery
source, and the normalized name comes from the name alias rule. -/
theorem c6_alias_priority_witness :
    Ingest.pick p6w Ingest.MAP_name (Val.vStr "Unnamed")
        = (Ingest.firstGood p6w Ingest.MAP_name).getD (Val.vStr "Unnamed")
    ∧ Ingest.galleryRaw p6w = some (Val.vStr "http://a.jpg,http://b.jpg")
    ∧ (Ingest.mkNormalized p6w).name
        = jsTrim (jsString ((Ingest.firstGood p6w Ingest.MAP_name).getD (Val.vStr "Unnamed"))) :=
  ⟨(c6_alias_priority p6w).1 Ingest.MAP_name (Val.vStr "Unnamed"),
   (c6_alias_priority p6w).2.1 (Val.vStr "http://a.jpg,http://b.jpg") rfl
     (fun hh => Val.noConfusion hh),
   ((c6_alias_priority p6w).2.2 (Ingest.mkNormalized p6w) rfl).2.1⟩

/-- C5: the gallery loop attempts exactly the first twelve normalized
gallery urls in source order, never more than twelve, with exactly
twelve attempts for a twenty-url gallery, and at most twelve file ids
can end up in the gallery field value. -/
theorem c5_gallery_cap (payload : Payload) (n : Ingest.Normalized)
    (h : Ingest.normalize payload = Except.ok n) :
    Ingest.galleryAttempts n.galleryUrls = n.galleryUrls.take 12
    ∧ (Ingest.galleryAttempts n.galleryUrls).length ≤ 12
    ∧ (n.galleryUrls.length = 20 →
        (Ingest.galleryAttempts n.galleryUrls).length = 12)
    ∧ (∀ oracle : Ingest.Oracle,
        (Ingest.galleryFileIds n.galleryUrls oracle).length ≤ 12) := by
  obtain ⟨hid, hn⟩ := Ingest.normalize_ok_elim payload n h
  subst hn
  have hall : ∀ u ∈ (Ingest.mkNormalized payload).galleryUrls, isHttpUrl u = true :=
    Ingest.galleryFromPayload_all_http payload
  have htake : Ingest.galleryAttempts (Ingest.mkNormalized payload).galleryUrls
      = (Ingest.mkNormalized payload).galleryUrls.take 12 :=
    Ingest.galleryAttempts_take _ hall
  have hlen : (Ingest.galleryAttempts (Ingest.mkNormalized payload).galleryUrls).length
      = min 12 (Ingest.mkNormalized payload).galleryUrls.length := by
    rw [htake, List.length_take]
  refine ⟨htake, ?_, ?_, ?_⟩
  · rw [hlen]; exact min_le_left _ _
  · intro h20
    rw [hlen, h20]
    decide
  · intro oracle
    calc (Ingest.galleryFileIds (Ingest.mkNormalized payload).galleryUrls oracle).length
        ≤ (Ingest.galleryAttempts (Ingest.mkNormalized payload).galleryUrls).length :=
          List.length_filterMap_le _ _
      _ ≤ 12 := by rw [hlen]; exact min_le_left _ _

/-- C5 witness: with twenty valid gallery urls, the attempts are exactly
the first twelve in source order. -/
theorem c5_gallery_cap_witness :
    Ingest.galleryAttempts (Ingest.mkNormalized p5w).galleryUrls
        = (Ingest.mkNormalized p5w).galleryUrls.take 12
    ∧ (Ingest.galleryAttempts (Ingest.mkNormalized p5w).galleryUrls).length = 12 :=
  ⟨(c5_gallery_cap p5w (Ingest.mkNormalized p5w) rfl).1,
   (c5_gallery_cap p5w (Ingest.mkNormalized p5w) rfl).2.2.1 rfl⟩

/-- C7: every upload attempt of a record targets an http(s) url; a
thrown upload error is caught to null; and whatever the upload outcomes,
the upsert field list always begins with the seventeen unconditional
fields, which are exactly the whole list when every upload fails. -/
theorem c7_materialize_degrades (n : Ingest.Normalized) (oracle : Ingest.Oracle) :
    (∀ url ∈ Ingest.uploadsOf n, isHttpUrl url = true)
    ∧ (∀ url e, oracle url = Except.error e → Ingest.materialize oracle url = none)
    ∧ (∃ extra, Ingest.finalFields n oracle = Ingest.buildBaseFields n ++ extra)
    ∧ ((∀ url, Ingest.materialize oracle url = none) →
        Ingest.finalFields n oracle = Ingest.buildBaseFields n) := by
  refine ⟨?_, ?_, ?_, ?_⟩
  · intro url hu
    rcases List.mem_append.mp hu with h1 | h1
    · unfold Ingest.imageAttempts at h1
      by_cases hc : n.imageUrl ≠ "" ∧ isHttpUrl n.imageUrl = true
      · rw [if_pos hc] at h1
        rcases List.mem_singleton.mp h1 with h2
        rw [h2]; exact hc.2
      · rw [if_neg hc] at h1
        exact absurd h1 (List.not_mem_nil url)
    · unfold Ingest.galleryAttempts at h1
      by_cases hg : n.galleryUrls = []
      · rw [if_pos hg] at h1
        exact absurd h1 (List.not_mem_nil url)
      · rw [if_neg hg] at h1
        exact (List.mem_filter.mp h1).2
  · intro url e he
    unfold Ingest.materialize
    rw [he]
  · exact ⟨Ingest.imageField n oracle ++ Ingest.galleryField n oracle,
      List.append_assoc _ _ _⟩
  · intro hall
    have himg : Ingest.imageField n oracle = [] := by
      unfold Ingest.imageField
      rw [hall n.imageUrl]
      by_cases hc : n.imageUrl ≠ "" ∧ isHttpUrl n.imageUrl = true
      · rw [if_pos hc]
      · rw [if_neg hc]
    have hids : Ingest.galleryFileIds n.galleryUrls oracle = [] := by
      unfold Ingest.galleryFileIds
      exact List.filterMap_eq_nil_iff.mpr (fun a _ => hall a)
    have hgal : Ingest.galleryField n oracle = [] := by
      unfold Ingest.galleryField
      rw [if_neg]
      intro hc
      exact hc.2 hids
    unfold Ingest.finalFields
    rw [himg, hgal, List.append_nil, List.append_nil]

/-- C7 witness: on a concrete record with an image and a gallery, a
store outage that fails every upload still leaves the seventeen
unconditional fields to upsert. -/
theorem c7_materialize_degrades_witness :
    Ingest.finalFields (Ingest.mkNormalized p7w) (fun _ => Except.error "down")
      = Ingest.buildBaseFields (Ingest.mkNormalized p7w) :=
  (c7_materialize_degrades (Ingest.mkNormalized p7w)
    (fun _ => Except.error "down")).2.2.2 (fun _ => rfl)

/-- C2 counterexample: a 200 response carrying a non-empty top-level
errors array and no data is returned by gql as success and the upsert
caller answers the 200 success path, so a non-empty errors array is not
treated as a failure. -/
theorem c2_errors_counterexample :
    r2c.ok = true
    ∧ r2c.json.errors = some ["Throttled"]
    ∧ Ingest.gql r2c = Except.ok r2c.json
    ∧ Ingest.upsertStep r2c = Ingest.UpsertOutcome.success none :=
  ⟨rfl, rfl, rfl, rfl⟩

/-- C2 amended: the gql helper of the two TypeScript handlers treats
every non-2xx transport response as a thrown failure but returns any
2xx body unchanged regardless of its errors array, and the upsert
caller reports success exactly when the transport was 2xx and the
response data carries no userErrors, independently of the top-level
errors array; the gql helper of the plain JavaScript handlers performs
no failure check at all and returns the parsed body unchanged for every
response, so there neither a non-2xx status nor a non-empty errors
array is treated as failure. -/
theorem c2_gql_failures (r : Ingest.HttpResp) :
    (r.ok = false → ∃ m, Ingest.gql r = Except.error m)
    ∧ (r.ok = true → Ingest.gql r = Except.ok r.json)
    ∧ ((∃ i, Ingest.upsertStep r = Ingest.UpsertOutcome.success i) ↔
        (r.ok = true ∧ ∀ d, r.json.upsertData = some d → d.userErrors = []))
    ∧ Ingest.gqlUnchecked r = r.json := by
  refine ⟨?_, ?_, ?_, rfl⟩
  · intro h
    refine ⟨"Shopify GraphQL error: " ++
      (match r.json.errors with
       | some es => Ingest.stringifyErrors es
       | none => "HTTP " ++ toString r.status), ?_⟩
    unfold Ingest.gql
    rw [if_pos h]
  · intro h
    unfold Ingest.gql
    rw [h]
    rw [if_neg (by decide : ¬(true = false))]
  · rcases r with ⟨ok, status, errs, ud⟩
    cases ok with
    | false => simp [Ingest.upsertStep, Ingest.gql]
    | true =>
        cases ud with
        | none => simp [Ingest.upsertStep, Ingest.gql]
        | some d =>
            rcases d with ⟨ues, mid⟩
            cases ues with
            | nil => simp [Ingest.upsertStep, Ingest.gql]
            | cons e es => simp [Ingest.upsertStep, Ingest.gql]

/-- C2 amended witness: a 500 transport response makes the checked gql
throw, while the unchecked gql returns even a 500 body with a non-empty
errors array unchanged. -/
theorem c2_gql_failures_witness :
    (∃ m, Ingest.gql ⟨false, 500, ⟨none, none⟩⟩ = Except.error m)
    ∧ Ingest.gqlUnchecked ⟨false, 500, ⟨some ["boom"], none⟩⟩
        = (⟨false, 500, ⟨some ["boom"], none⟩⟩ : Ingest.HttpResp).json :=
  ⟨(c2_gql_failures ⟨false, 500, ⟨none, none⟩⟩).1 rfl,
   (c2_gql_failures ⟨false, 500, ⟨some ["boom"], none⟩⟩).2.2.2⟩

/-- C3: the reconciler submits for creation exactly the catalog fields
whose keys are absent from the existing field set, never updates or
removes an existing field, answers noop without any request when nothing
is missing, and a second run over a store that accepted the first run's
fields is a noop. -/
theorem c3_reconcile_additive (id : String) (keys : List String) :
    (∀ f, f ∈ Setup.toCreate keys ↔ f ∈ Setup.FIELDS ∧ f.key ∉ keys)
    ∧ (Setup.toCreate keys = [] →
        Setup.reconcile (some (id, keys)) = Setup.ReconcileAction.noop)
    ∧ (∀ i u c,
        Setup.reconcile (some (id, keys)) = Setup.ReconcileAction.extended i u c →
        u = [] ∧ c = Setup.toCreate keys)
    ∧ Setup.reconcile (some (id, keys ++ (Setup.toCreate keys).map (fun f => f.key)))
        = Setup.ReconcileAction.noop := by
  refine ⟨?_, ?_, ?_, ?_⟩
  · intro f
    simp [Setup.toCreate, List.mem_filter]
  · intro h
    show (if Setup.toCreate keys = [] then Setup.ReconcileAction.noop
          else Setup.ReconcileAction.extended id [] (Setup.toCreate keys))
        = Setup.ReconcileAction.noop
    rw [if_pos h]
  · intro i u c h
    replace h : (if Setup.toCreate keys = [] then Setup.ReconcileAction.noop
          else Setup.ReconcileAction.extended id [] (Setup.toCreate keys))
        = Setup.ReconcileAction.extended i u c := h
    by_cases he : Setup.toCreate keys = []
    · rw [if_pos he] at h
      exact Setup.ReconcileAction.noConfusion h
    · rw [if_neg he] at h
      injection h with h1 h2 h3
      exact ⟨h2.symm, h3.symm⟩
  · have hnil : Setup.toCreate (keys ++ (Setup.toCreate keys).map (fun f => f.key)) = [] := by
      unfold Setup.toCreate
      rw [List.filter_eq_nil_iff]
      intro f hf
      simp only [decide_eq_true_eq, not_not]
      rw [List.mem_append]
      by_cases hk : f.key ∈ keys
      · exact Or.inl hk
      · right
        refine List.mem_map.mpr ⟨f, ?_, rfl⟩
        exact List.mem_filter.mpr ⟨hf, decide_eq_true hk⟩
    show (if Setup.toCreate (keys ++ (Setup.toCreate keys).map (fun f => f.key)) = []
          then Setup.ReconcileAction.noop
          else Setup.ReconcileAction.extended id []
            (Setup.toCreate (keys ++ (Setup.toCreate keys).map (fun f => f.key))))
        = Setup.ReconcileAction.noop
    rw [if_pos hnil]

/-- C3 witness: a second reconciliation over the accepted key set of a
first run that started from only the name key is a noop. -/
theorem c3_reconcile_additive_witness :
    Setup.reconcile (some ("gid", ["name"] ++ (Setup.toCreate ["name"]).map (fun f => f.key)))
      = Setup.ReconcileAction.noop :=
  (c3_reconcile_additive "gid" ["name"]).2.2.2

end BarkhausSync
